import Mathlib

set_option maxRecDepth 20000

namespace ThinkShell

/-!
Verification development for the ThinkShell terminal agent.

The source under scrutiny is the agent controller and safety gate in
`src/llm/openaiintegrator.py` (the primary, newer copy; `src/llm/openAI.py` is an
older near-duplicate), the PTY bootstrap in `src/pty_shell.py`, and the
raw-mode lifecycle in `src/main.py`.

Strings are modelled as `List Char`.  The Python regular expressions of the
safety gate use only character literals, ASCII character classes (`\s`, `.`,
`[a-z]`), class repetition (`\s*`, `\s+`, `.*`), alternation, and the
zero-width assertions `\b`, `^`, `$`; they are embedded as values of a small
regex AST `Re` together with an executable matcher with exactly those
constructs.  `re.search` semantics (a match may start at any position) is
`reSearch`.  Word and whitespace classes are modelled on the ASCII fragment of
Python's semantics (commands and paths handled by the program are shell text).
-/

/-- Single-quote character, written via its code point to keep source lines
plain; used to build the bash snippets that the controller emits. -/
def sqc : Char := Char.ofNat 39

/-- Left curly brace character (used when rendering JSON objects). -/
def lbrace : Char := Char.ofNat 123

/-- Right curly brace character (used when rendering JSON objects). -/
def rbrace : Char := Char.ofNat 125

/-- ASCII word character, the ASCII fragment of Python's `\w` used by `\b`. -/
def pyWordChar (c : Char) : Bool := c.isAlphanum || c = '_'

/-- ASCII whitespace, the ASCII fragment of Python's `\s`. -/
def pySpaceChar (c : Char) : Bool :=
  c = ' ' || c = '\t' || c = '\n' || c = '\x0d' || c = '\x0b' || c = '\x0c'

/-- Any character except newline: Python's `.` without `re.DOTALL`. -/
def anyNotNL (c : Char) : Bool := c ≠ '\n'

/-- Lowercase ASCII letter: the class `[a-z]`. -/
def lowerAZ (c : Char) : Bool := 'a' ≤ c && c ≤ 'z'

/-- Regex AST covering exactly the constructs of the gate's patterns:
character, character class, class repetition (`many` = zero or more, `many1` =
one or more characters of a class), concatenation, alternation, and the
zero-width assertions `\b` (`bound`), `^` (`bol`) and `$` (`eol`). -/
inductive Re where
  | eps : Re
  | char : Char → Re
  | cls : (Char → Bool) → Re
  | many : (Char → Bool) → Re
  | many1 : (Char → Bool) → Re
  | seq : Re → Re → Re
  | alt : Re → Re → Re
  | bound : Re
  | bol : Re
  | eol : Re

/-- Word-character test on the previous character (`none` = start of string). -/
def isWordO : Option Char → Bool
  | none => false
  | some c => pyWordChar c

/-- Word-character test on the head of the remaining input (end = non-word). -/
def isWordHead : List Char → Bool
  | [] => false
  | c :: _ => pyWordChar c

/-- Python `\b`: the two sides of the current position differ in word-ness. -/
def wordBoundary (p : Option Char) (s : List Char) : Bool :=
  isWordO p != isWordHead s

/-- Python `$` without `re.MULTILINE`: end of string, or just before a final
newline. -/
def atEol : List Char → Bool
  | [] => true
  | [c] => c = '\n'
  | _ :: _ :: _ => false

/-- All states reachable by consuming zero or more characters of class `f`,
as pairs (previous character, remaining input).  This interprets `many f`. -/
def takeRun (f : Char → Bool) : Option Char → List Char → List (Option Char × List Char)
  | p, [] => [(p, [])]
  | p, c :: s => (p, c :: s) :: (if f c then takeRun f (some c) s else [])

/-- Nondeterministic matcher: all states (previous character, remaining input)
reachable by matching `r` at the current position.  The previous character is
threaded through to interpret the zero-width assertions. -/
def mAt : Re → Option Char → List Char → List (Option Char × List Char)
  | .eps, p, s => [(p, s)]
  | .char _, _, [] => []
  | .char c, _, d :: s => if d = c then [(some d, s)] else []
  | .cls _, _, [] => []
  | .cls f, _, d :: s => if f d then [(some d, s)] else []
  | .many f, p, s => takeRun f p s
  | .many1 _, _, [] => []
  | .many1 f, _, d :: s => if f d then takeRun f (some d) s else []
  | .seq a b, p, s => (mAt a p s).flatMap (fun x => mAt b x.1 x.2)
  | .alt a b, p, s => mAt a p s ++ mAt b p s
  | .bound, p, s => if wordBoundary p s then [(p, s)] else []
  | .bol, p, s => if p.isNone then [(p, s)] else []
  | .eol, p, s => if atEol s then [(p, s)] else []

/-- A match of `r` exists starting at the current position or at any later
position; the previous character is threaded along. -/
def searchFrom (r : Re) : Option Char → List Char → Bool
  | p, [] => !(mAt r p []).isEmpty
  | p, c :: s => !(mAt r p (c :: s)).isEmpty || searchFrom r (some c) s

/-- Python `re.search(r, s)` as a boolean: a match exists at some position. -/
def reSearch (r : Re) (s : List Char) : Bool := searchFrom r none s

/-- Literal string as a regex (concatenation of its characters). -/
def strRe : List Char → Re
  | [] => .eps
  | c :: cs => .seq (.char c) (strRe cs)

/-- Concatenation of a list of regexes. -/
def seqList : List Re → Re
  | [] => .eps
  | r :: rs => .seq r (seqList rs)

/-! Forbidden patterns, one definition per entry of `FORBIDDEN_PATTERNS` in
`src/llm/openaiintegrator.py` lines 249-261. -/

/-- Pattern `\brm\s+-rf\b`. -/
def patRmRf : Re :=
  seqList [.bound, strRe "rm".data, .many1 pySpaceChar, strRe "-rf".data, .bound]

/-- Pattern `\bdd\s+if=`. -/
def patDdIf : Re :=
  seqList [.bound, strRe "dd".data, .many1 pySpaceChar, strRe "if=".data]

/-- Pattern `\bmkfs\b`. -/
def patMkfs : Re := seqList [.bound, strRe "mkfs".data, .bound]

/-- Pattern `\bshutdown\b`. -/
def patShutdown : Re := seqList [.bound, strRe "shutdown".data, .bound]

/-- Pattern `\breboot\b`. -/
def patReboot : Re := seqList [.bound, strRe "reboot".data, .bound]

/-- Pattern `>\s*/$`. -/
def patRedirRoot : Re :=
  seqList [.char '>', .many pySpaceChar, .char '/', .eol]

/-- Pattern `\|\s*(sh|bash|zsh)\b`. -/
def patPipeShell : Re :=
  seqList [.char '|', .many pySpaceChar,
    .alt (strRe "sh".data) (.alt (strRe "bash".data) (strRe "zsh".data)), .bound]

/-- Pattern `:\(\)\s*\{.*\|\s*&\s*\};:` (the fork-bomb shape). -/
def patForkBomb : Re :=
  seqList [.char ':', .char '(', .char ')', .many pySpaceChar, .char lbrace,
    .many anyNotNL, .char '|', .many pySpaceChar, .char '&', .many pySpaceChar,
    .char rbrace, .char ';', .char ':']

/-- Pattern `\bchmod\s+-R\s+777\s+/\b`. -/
def patChmod777 : Re :=
  seqList [.bound, strRe "chmod".data, .many1 pySpaceChar, strRe "-R".data,
    .many1 pySpaceChar, strRe "777".data, .many1 pySpaceChar, .char '/', .bound]

/-- Pattern `\bmv\s+/\b`. -/
def patMvRoot : Re :=
  seqList [.bound, strRe "mv".data, .many1 pySpaceChar, .char '/', .bound]

/-- Pattern `>\s*/dev/sd[a-z]`. -/
def patRedirBlock : Re :=
  seqList [.char '>', .many pySpaceChar, strRe "/dev/sd".data, .cls lowerAZ]

/-- `FORBIDDEN_PATTERNS` of `src/llm/openaiintegrator.py` lines 249-261, in
source order. -/
def FORBIDDEN_PATTERNS : List Re :=
  [patRmRf, patDdIf, patMkfs, patShutdown, patReboot, patRedirRoot,
   patPipeShell, patForkBomb, patChmod777, patMvRoot, patRedirBlock]

/-! Sensitive-upload patterns, `SENSITIVE_UPLOAD_PATTERNS` lines 263-272. -/

/-- Shape `(^|/)<comp>(/|$)` shared by the `.ssh`, `.aws` and `.gnupg`
patterns. -/
def compPat (comp : List Char) : Re :=
  seqList [.alt .bol (.char '/'), strRe comp, .alt (.char '/') .eol]

/-- Pattern `(^|/)\.ssh(/|$)`. -/
def patSsh : Re := compPat ".ssh".data

/-- Pattern `(^|/)\.aws(/|$)`. -/
def patAws : Re := compPat ".aws".data

/-- Pattern `(^|/)\.gnupg(/|$)`. -/
def patGnupg : Re := compPat ".gnupg".data

/-- Pattern `(^|/)\.env$`. -/
def patEnv : Re := seqList [.alt .bol (.char '/'), strRe ".env".data, .eol]

/-- Pattern `\.pem$`. -/
def patPem : Re := .seq (strRe ".pem".data) .eol

/-- Pattern `\.key$`. -/
def patKey : Re := .seq (strRe ".key".data) .eol

/-- Pattern `id_rsa$`. -/
def patIdRsa : Re := .seq (strRe "id_rsa".data) .eol

/-- Pattern `id_ed25519$`. -/
def patIdEd25519 : Re := .seq (strRe "id_ed25519".data) .eol

/-- `SENSITIVE_UPLOAD_PATTERNS` lines 263-272, in source order. -/
def SENSITIVE_UPLOAD_PATTERNS : List Re :=
  [patSsh, patAws, patGnupg, patEnv, patPem, patKey, patIdRsa, patIdEd25519]

/-- `MAX_UPLOAD_FILES` (line 274). -/
def MAX_UPLOAD_FILES : Nat := 10

/-- `MAX_UPLOAD_BYTES_PER_FILE` (line 275). -/
def MAX_UPLOAD_BYTES_PER_FILE : Nat := 250000

/-- `is_runtime_safe` (lines 294-299): false iff some forbidden pattern is
found in the command text.  The source's for-loop with early `return False`
is the `List.any` below.  The predicate is a pure function of the command
string: it never runs the command. -/
def is_runtime_safe (cmd : List Char) : Bool :=
  !(FORBIDDEN_PATTERNS.any (fun r => reSearch r cmd))

/-- Separator normalization `p.replace("\\", "/")` (line 302); on single
characters `str.replace` is a character map. -/
def normalizeSep (p : List Char) : List Char :=
  p.map (fun c => if c = '\\' then '/' else c)

/-- `_is_sensitive_upload_path` (lines 301-306): some sensitive pattern is
found in the separator-normalized path. -/
def _is_sensitive_upload_path (p : List Char) : Bool :=
  SENSITIVE_UPLOAD_PATTERNS.any (fun r => reSearch r (normalizeSep p))

example : is_runtime_safe "rm -rf /tmp/x".data = false := by decide
example : is_runtime_safe "ls -la".data = true := by decide
example : is_runtime_safe "chmod -R 777 /home".data = false := by decide
example : _is_sensitive_upload_path "/home/u/.ssh/config".data = true := by decide
example : _is_sensitive_upload_path "a.env".data = false := by decide
example : _is_sensitive_upload_path "notes.txt".data = false := by decide

/-! Bash quoting, JSON string rendering, and the snippet builders. -/

/-- Characters `shlex.quote` leaves unquoted: ASCII word characters plus
`@ % + = : , . /` and the hyphen (the complement of the unsafe-character
class in `shlex`, compiled with `re.ASCII`). -/
def shlexSafeChar (c : Char) : Bool :=
  c.isAlphanum || c = '_' || c = '@' || c = '%' || c = '+' || c = '=' ||
  c = ':' || c = ',' || c = '.' || c = '/' || c = '-'

/-- Replacement `shlex.quote` makes for a single quote character. -/
def shlexEscQuote : List Char := [sqc, '"', sqc, '"', sqc]

/-- `_bash_quote` = `shlex.quote` (lines 285-287): an empty string becomes a
pair of quotes; a string of safe characters passes unchanged; anything else
is wrapped in single quotes with embedded quotes escaped. -/
def _bash_quote (s : List Char) : List Char :=
  if s = [] then [sqc, sqc]
  else if s.all shlexSafeChar then s
  else [sqc] ++ s.flatMap (fun c => if c = sqc then shlexEscQuote else [c]) ++ [sqc]

/-- Lowercase hexadecimal digit. -/
def hexDigit (n : Nat) : Char :=
  if n < 10 then Char.ofNat (48 + n) else Char.ofNat (87 + n)

/-- Four-digit hexadecimal rendering used by the `\uXXXX` escapes of
`json.dumps`. -/
def hex4 (n : Nat) : List Char :=
  [hexDigit (n / 4096 % 16), hexDigit (n / 256 % 16), hexDigit (n / 16 % 16),
   hexDigit (n % 16)]

/-- Escape of one character in a JSON string, following `json.dumps`: the
named escapes, `\u00XX` for remaining control characters, and — when
`ensure_ascii` holds (the `json.dumps` default, used by `safe_echo`) —
`\uXXXX` (surrogate pairs beyond the BMP) for characters outside printable
ASCII. -/
def jsonEscapeChar (ensureAscii : Bool) (c : Char) : List Char :=
  if c = '"' then ['\\', '"']
  else if c = '\\' then ['\\', '\\']
  else if c = '\n' then ['\\', 'n']
  else if c = '\t' then ['\\', 't']
  else if c = '\x0d' then ['\\', 'r']
  else if c = '\x08' then ['\\', 'b']
  else if c = '\x0c' then ['\\', 'f']
  else if c.toNat < 32 then ['\\', 'u'] ++ hex4 c.toNat
  else if ensureAscii && c.toNat ≥ 127 then
    if c.toNat < 65536 then ['\\', 'u'] ++ hex4 c.toNat
    else ['\\', 'u'] ++ hex4 (55296 + (c.toNat - 65536) / 1024) ++
         ['\\', 'u'] ++ hex4 (56320 + (c.toNat - 65536) % 1024)
  else [c]

/-- JSON rendering of one string per `json.dumps`. -/
def jsonStr (ensureAscii : Bool) (s : List Char) : List Char :=
  ['"'] ++ s.flatMap (jsonEscapeChar ensureAscii) ++ ['"']

/-- `safe_echo` (lines 390-392): `"echo " + json.dumps(msg)`. -/
def safe_echo (msg : List Char) : List Char := "echo ".data ++ jsonStr true msg

/-- Python `sep.join(xs)`. -/
def joinWith (sep : List Char) : List (List Char) → List Char
  | [] => []
  | [x] => x
  | x :: y :: rest => x ++ sep ++ joinWith sep (y :: rest)

/-- `json.dumps` of a string-valued dict (used for the `INSPECTION_RESULT`
and `UPLOADED_FILES` messages, which pass `ensure_ascii=False`). -/
def jsonDumpsDict (d : List (List Char × List Char)) : List Char :=
  [lbrace] ++
  joinWith ", ".data
    (d.map (fun kv => jsonStr false kv.1 ++ ": ".data ++ jsonStr false kv.2)) ++
  [rbrace]

/-- One `printf <fmt> <quoted-arg>` line of a generated snippet. -/
def printfFmt (fmt : List Char) (quoted : List Char) : List Char :=
  "printf ".data ++ [sqc] ++ fmt ++ [sqc] ++ " ".data ++ quoted

/-- `_interactive_review_snippet` (lines 400-422).  The preamble lines are
built first; then every command is re-checked against the safety gate before
any runnable code is emitted (the source's for-loop with early return is the
`List.any`); if any command is unsafe the whole batch is discarded in favour
of the blocked-execution echo, otherwise the confirmation prompt and the
guarded command list are appended. -/
def _interactive_review_snippet (reason : List Char) (commands : List (List Char)) :
    List Char :=
  let lines : List (List Char) :=
    [printfFmt "%s\\n".data
       (_bash_quote ("Review required: ".data ++
         (if reason = [] then "Confirmation needed.".data else reason))),
     printfFmt "%s\\n".data ([sqc] ++ "Proposed commands:".data ++ [sqc])]
    ++ commands.map (fun cmd => printfFmt "  %s\\n".data (_bash_quote cmd))
  if commands.any (fun cmd => !(is_runtime_safe cmd)) then
    safe_echo "Execution blocked by runtime safety guard.".data
  else
    joinWith "\n".data (lines ++
      ["read -r -p ".data ++ [sqc] ++ "Proceed? [y/N] ".data ++ [sqc] ++ " TS_PROCEED".data,
       "case \"$TS_PROCEED\" in".data,
       "  y|Y|yes|YES)".data,
       "    set -e".data]
      ++ commands.map (fun cmd => "    ".data ++ cmd)
      ++ ["    ;;".data,
          "  *) echo ".data ++ [sqc] ++ "Aborted.".data ++ [sqc] ++ " ;;".data,
          "esac".data])

/-- `_interactive_ask_snippet` (lines 424-432): print the question (or the
default), read one line of input, bind the follow-up query, and re-invoke the
controller through the shell variables `$TSPY`/`$TSCTL`.  The `\n\n` inside
the Python literal are real newline characters in the emitted bash text. -/
def _interactive_ask_snippet (original_intent : List Char) (question : List Char) :
    List Char :=
  joinWith "\n".data
    [printfFmt "%s\\n".data
       (_bash_quote (if question = [] then "Need more information.".data else question)),
     "read -r -p ".data ++ [sqc] ++ "> ".data ++ [sqc] ++ " TS_ANSWER".data,
     "TS_FOLLOWUP=".data ++ _bash_quote original_intent,
     "TS_NEW_QUERY=\"$TS_FOLLOWUP\n\nUSER_ANSWER: $TS_ANSWER\"".data,
     "agentresponse=\"$($TSPY $TSCTL FAIL \"$TS_NEW_QUERY\")\"".data,
     "if [ -n \"$agentresponse\" ]; then eval \"$agentresponse\"; fi".data]

/-- Names of the environment variables exported to the child shell by
`spawn_shell` (`src/pty_shell.py` lines 43-44): the controller path and the
interpreter path of the hook contract. -/
def TS_CTL_VAR : List Char := "TS_CTL".data

/-- Interpreter-path variable name of the hook contract (`src/pty_shell.py`
line 44). -/
def TS_PY_VAR : List Char := "TS_PY".data

/-- The hook invocation installed by `_create_bashrc` (`src/pty_shell.py`
line 71): the command-not-found handler calls the controller entry point
through `"$TS_PY" "$TS_CTL"`. -/
def hook_invocation_line : List Char :=
  "agent_response=$(\"$TS_PY\" \"$TS_CTL\" \"FAIL\" \"$full_cmd\")".data

/-! The decision-service reply model: JSON values as returned by
`json.loads`, with the fragments of Python semantics the controller applies
to them. -/

/-- JSON values, the shape of data produced by `json.loads`. -/
inductive JVal where
  | null : JVal
  | bool : Bool → JVal
  | num : Int → JVal
  | str : List Char → JVal
  | arr : List JVal → JVal
  | obj : List (List Char × JVal) → JVal

mutual

/-- Python `repr` of JSON-shaped values (quote-escaping inside `repr` of a
string is not modelled; no theorem path reaches it). -/
def pyRepr : JVal → List Char
  | .null => "None".data
  | .bool true => "True".data
  | .bool false => "False".data
  | .num n => (toString n).data
  | .str s => [sqc] ++ s ++ [sqc]
  | .arr xs => "[".data ++ pyReprList xs ++ "]".data
  | .obj kvs => [lbrace] ++ pyReprPairs kvs ++ [rbrace]

/-- Comma-separated `repr` of list elements. -/
def pyReprList : List JVal → List Char
  | [] => []
  | [x] => pyRepr x
  | x :: y :: rest => pyRepr x ++ ", ".data ++ pyReprList (y :: rest)

/-- Comma-separated `repr` of dict entries. -/
def pyReprPairs : List (List Char × JVal) → List Char
  | [] => []
  | [(k, v)] => [sqc] ++ k ++ [sqc] ++ ": ".data ++ pyRepr v
  | (k, v) :: y :: rest =>
      [sqc] ++ k ++ [sqc] ++ ": ".data ++ pyRepr v ++ ", ".data ++ pyReprPairs (y :: rest)

end

/-- Python `str()` of JSON-shaped values: a string is itself, anything else
renders as its `repr`. -/
def pyStr : JVal → List Char
  | .str s => s
  | v => pyRepr v

/-- Python `str.upper` on the ASCII fragment. -/
def pyUpper (s : List Char) : List Char := s.map Char.toUpper

/-- Python `str.strip()`: whitespace dropped from both ends. -/
def pyStrip (s : List Char) : List Char :=
  ((s.dropWhile pySpaceChar).reverse.dropWhile pySpaceChar).reverse

/-- Python truthiness of JSON-shaped values (`x or default`). -/
def pyTruthy : JVal → Bool
  | .null => false
  | .bool b => b
  | .num n => n != 0
  | .str s => !s.isEmpty
  | .arr xs => !xs.isEmpty
  | .obj kvs => !kvs.isEmpty

/-- Lookup in an insertion-ordered dict (first binding of the key). -/
def jlookup (k : List Char) : List (List Char × JVal) → Option JVal
  | [] => none
  | (k2, v) :: rest => if k2 = k then some v else jlookup k rest

/-- Python `dict.get(k, default)`. -/
def jget (d : List (List Char × JVal)) (k : List Char) (dflt : JVal) : JVal :=
  (jlookup k d).getD dflt

/-- A decision-service call either yields a parsed reply dict, or raises: the
exception message covers both a transport error and a `json.loads` failure,
the two failure modes the `try` of `call_llm` catches. -/
abbrev LlmResult := Except (List Char) (List (List Char × JVal))

/-- `call_llm` (lines 355-370): return the parsed JSON object; any exception
from the transport or from JSON parsing is caught and replaced by the
fail-closed BLOCK dict carrying the diagnostic.  A successfully parsed object
is returned unchanged, whatever fields it has or lacks. -/
def call_llm (result : LlmResult) : List (List Char × JVal) :=
  match result with
  | .ok d => d
  | .error e =>
      [("action".data, .str "BLOCK".data),
       ("reason".data, .str ("LLM Error: ".data ++ e)),
       ("commands".data, .arr [])]

/-- Extraction `str(llm_response.get("action", "")).upper().strip()`
(line 515). -/
def actionOfDict (d : List (List Char × JVal)) : List Char :=
  pyStrip (pyUpper (pyStr (jget d "action".data (.str []))))

/-- `normalize_commands` (lines 394-398): a non-list value yields `[]`;
entries that are not strings or whose `strip()` is empty are dropped, the
kept entries unchanged and in order. -/
def normalize_commands : JVal → List (List Char)
  | .arr xs => xs.filterMap (fun x => match x with
      | .str s => if pyStrip s = [] then none else some s
      | _ => none)
  | _ => []

/-- Python `str(v or default)` as used by the ASK/REVIEW/BLOCK branches. -/
def strOrDefault (v : JVal) (dflt : List Char) : List Char :=
  if pyTruthy v then pyStr v else dflt

example : actionOfDict (call_llm (.error "boom".data)) = "BLOCK".data := by decide
example : normalize_commands (.arr [.str "  ".data, .num 3, .str "ls".data]) =
    ["ls".data] := by decide
example : safe_echo "No commands provided.".data =
    "echo \"No commands provided.\"".data := by decide

/-! The agent controller: ledgers, filesystem model, and the decision loop of
`ai_terminal` (`src/llm/openaiintegrator.py` lines 485-583). -/

/-- Insertion-ordered dict update, Python `d[k] = v`: an existing key keeps
its position and takes the new value, a new key is appended. -/
def dictInsert (k v : List Char) :
    List (List Char × List Char) → List (List Char × List Char)
  | [] => [(k, v)]
  | (k2, v2) :: rest =>
      if k2 = k then (k, v) :: rest else (k2, v2) :: dictInsert k v rest

/-- What the filesystem reports for a path: a regular file or not, and a size
(`none` models an `OSError` from `os.path.getsize`); a path that does not
exist maps to `none` in the oracle. -/
structure FsEntry where
  isFile : Bool
  size? : Option Nat

/-- `_validate_file` (lines 308-325) over an abstract filesystem oracle: the
checks run in source order — existence, regular file, sensitivity, size
ceiling; the per-failure echo prints are stdout side effects not modelled in
the boolean result. -/
def _validate_file (fs : List Char → Option FsEntry) (path : List Char) : Bool :=
  match fs path with
  | none => false
  | some e =>
    if !e.isFile then false
    else if _is_sensitive_upload_path path then false
    else match e.size? with
      | none => false
      | some n => if n > MAX_UPLOAD_BYTES_PER_FILE then false else true

/-- State of an UPLOAD round: the per-round payload dict and the staged-path
ledger `uploaded_files`. -/
structure UploadSt where
  payload : List (List Char × List Char)
  uploaded : List (List Char)

/-- One iteration of the UPLOAD loop body (lines 540-553): an already-staged
path is skipped outright; a validated path is staged through `uploadFile`
(`none` models a staging failure) and on success recorded in the staged set;
failures record the per-path marker strings without stopping the round. -/
def uploadStep (fs : List Char → Option FsEntry)
    (uploadFile : List Char → Option (List Char)) (st : UploadSt)
    (path : List Char) : UploadSt :=
  if path ∈ st.uploaded then st
  else if _validate_file fs path then
    match uploadFile path with
    | some fid =>
        { payload := dictInsert path fid st.payload,
          uploaded := st.uploaded ++ [path] }
    | none => { st with payload := dictInsert path "UPLOAD_FAILED".data st.payload }
  else { st with payload := dictInsert path "VALIDATION_FAILED".data st.payload }

/-- A whole UPLOAD round (lines 538-557): at most `MAX_UPLOAD_FILES` paths of
the request are processed, in order. -/
def uploadRound (fs : List Char → Option FsEntry)
    (uploadFile : List Char → Option (List Char)) (uploaded : List (List Char))
    (commands : List (List Char)) : UploadSt :=
  (commands.take MAX_UPLOAD_FILES).foldl (uploadStep fs uploadFile) ⟨[], uploaded⟩

/-- State of an INSPECT round: the observation dict, the inspected-command
ledger `seen_inspects`, and the log of subprocess invocations. -/
structure InspectSt where
  out : List (List Char × List Char)
  seen : List (List Char)
  probes : List (List Char)

/-- One iteration of the INSPECT loop body (lines 521-530): a command already
in the ledger records the repeated-inspection marker without re-running; an
unsafe command records the blocked marker; otherwise the probe runs
(`runCmd` is the captured-output `run_command` subprocess) and the command
enters the ledger. -/
def inspectStep (runCmd : List Char → List Char) (st : InspectSt)
    (cmd : List Char) : InspectSt :=
  if cmd ∈ st.seen then
    { st with out := dictInsert cmd "ERROR: repeated inspection detected".data st.out }
  else if !(is_runtime_safe cmd) then
    { st with out := dictInsert cmd "BLOCKED: runtime safety guard".data st.out }
  else
    { out := dictInsert cmd (runCmd cmd) st.out,
      seen := st.seen ++ [cmd], probes := st.probes ++ [cmd] }

/-- The EXECUTE loop body (lines 567-573): the first unsafe command aborts
with the blocked echo naming it; safe commands run as captured-output
subprocesses with their outputs accumulated.  The second component logs the
commands actually handed to a subprocess. -/
def executeGo (runCmd : List Char → List Char) (acc probes : List (List Char)) :
    List (List Char) → List Char × List (List Char)
  | [] => (joinWith "\n".data acc, probes)
  | c :: rest =>
    if !(is_runtime_safe c) then
      (safe_echo ("Execution blocked by runtime safety guard, for command : ".data ++ c),
       probes)
    else executeGo runCmd (acc ++ [runCmd c]) (probes ++ [c]) rest

/-- The EXECUTE branch (lines 566-575): an empty command list yields the
notice, otherwise the loop result — the newline-join of the captured outputs,
or the blocked echo. -/
def executeBranch (runCmd : List Char → List Char) (commands : List (List Char)) :
    List Char × List (List Char) :=
  if commands = [] then (safe_echo "No commands provided.".data, [])
  else executeGo runCmd [] [] commands

/-- One conversation message: role and content. -/
abbrev Msg := List Char × List Char

/-- The effect oracles of one `ai_terminal` activation: the decision service
(one reply or exception per round, also handed the delta of messages the
controller sends), the captured-output subprocess runner `run_command`, the
filesystem, and the file-staging collaborator.  Message content is a
deterministic function of earlier replies, so quantifying over reply streams
covers every behaviour of the remote service. -/
structure AgentEnv where
  decide : Nat → List Msg → LlmResult
  runCmd : List Char → List Char
  fs : List Char → Option FsEntry
  uploadFile : List Char → Option (List Char)

/-- Result of one activation: the bash text returned to the hook, plus
instrumentation of the effectful calls — the number of decision rounds, the
log of subprocess invocations, and the final message list. -/
structure AgentOutcome where
  output : List Char
  rounds : Nat
  probes : List (List Char)
  messages : List Msg

/-- Mutable state of the decision loop (lines 496-504): the message list, the
two ledgers, the sent cursor `last_sent_index`, and the instrumentation. -/
structure LoopSt where
  messages : List Msg
  seen : List (List Char)
  uploaded : List (List Char)
  lastSent : Nat
  rounds : Nat
  probes : List (List Char)

/-- `MAX_STEPS` (line 500). -/
def MAX_STEPS : Nat := 12

/-- The decision loop of `ai_terminal` (lines 505-583), `fuel` being the
remaining iterations of `for _ in range(MAX_STEPS)`.  Branch order follows
the source: INSPECT, UPLOAD, ASK, REVIEW, EXECUTE, BLOCK, invalid-action.
The informational echo prints are stdout side effects, not part of the
returned text. -/
def ai_terminal_loop (env : AgentEnv) (userInput : List Char) :
    LoopSt → Nat → AgentOutcome
  | st, 0 =>
    { output := safe_echo "Agent timed out.".data, rounds := st.rounds,
      probes := st.probes, messages := st.messages }
  | st, fuel + 1 =>
    let reply := call_llm (env.decide st.rounds (st.messages.drop st.lastSent))
    let lastSent := st.messages.length
    let rounds := st.rounds + 1
    let action := actionOfDict reply
    let commands := normalize_commands (jget reply "commands".data (.arr []))
    let reason := jget reply "reason".data .null
    if action = "INSPECT".data then
      let ist := commands.foldl (inspectStep env.runCmd) ⟨[], st.seen, st.probes⟩
      ai_terminal_loop env userInput
        { messages := st.messages ++
            [("system".data, "INSPECTION_RESULT: ".data ++ jsonDumpsDict ist.out)],
          seen := ist.seen, uploaded := st.uploaded, lastSent := lastSent,
          rounds := rounds, probes := ist.probes } fuel
    else if action = "UPLOAD".data then
      let ust := uploadRound env.fs env.uploadFile st.uploaded commands
      ai_terminal_loop env userInput
        { messages := st.messages ++
            [("system".data, "UPLOADED_FILES: ".data ++ jsonDumpsDict ust.payload)],
          seen := st.seen, uploaded := ust.uploaded, lastSent := lastSent,
          rounds := rounds, probes := st.probes } fuel
    else if action = "ASK".data then
      { output := _interactive_ask_snippet userInput (strOrDefault reason []),
        rounds := rounds, probes := st.probes, messages := st.messages }
    else if action = "REVIEW".data then
      { output := _interactive_review_snippet (strOrDefault reason []) commands,
        rounds := rounds, probes := st.probes, messages := st.messages }
    else if action = "EXECUTE".data then
      let res := executeBranch env.runCmd commands
      { output := res.1, rounds := rounds, probes := st.probes ++ res.2,
        messages := st.messages }
    else if action = "BLOCK".data then
      { output := safe_echo (strOrDefault reason "Action blocked.".data),
        rounds := rounds, probes := st.probes, messages := st.messages }
    else
      ai_terminal_loop env userInput
        { st with
          messages := st.messages ++
            [("system".data, "INVALID_ACTION: Return a valid action enum.".data)],
          lastSent := lastSent, rounds := rounds } fuel

/-- `ai_terminal` (lines 485-583) for one activation: the per-call
conversation starts with the `ORIGINAL_INTENT` message; the conversation
reset prelude of lines 486-493 only manages the remote handle and exchange
counter and performs no action, so it sits outside the loop model. -/
def ai_terminal (env : AgentEnv) (userInput : List Char) : AgentOutcome :=
  ai_terminal_loop env userInput
    { messages := [("system".data, "ORIGINAL_INTENT: ".data ++ userInput)],
      seen := [], uploaded := [], lastSent := 0, rounds := 0, probes := [] }
    MAX_STEPS

/-! Terminal-attribute lifecycle of the proxy process, `src/main.py` lines
224-244: `old_attrs` is captured once (line 227); `atexit.register(restore,
fd, old_attrs)` (line 232) registers a restore that the interpreter runs at
process exit; the try-body sets raw mode (line 238); the `except Exception`
arm calls `restore` (line 241); the `finally` arm calls `restore` (line 244).
A `KeyboardInterrupt` escaping the body is not an `Exception`, so it skips
the except arm but still runs the finally arm and the atexit handler. -/

/-- Terminal-attribute operations `main` performs. -/
inductive TermEvent where
  | setRaw : TermEvent
  | restoreSaved : TermEvent
deriving DecidableEq

/-- Exit paths of `main` after the startup capture of `old_attrs` succeeded;
the `Bool` records whether `set_manual_raw` had already run when the body was
cut short. -/
inductive ExitPath where
  | normal : ExitPath
  | exnInBody : Bool → ExitPath
  | interruptInBody : Bool → ExitPath

/-- Trace of terminal-attribute operations on each exit path: the body (raw
mode, when reached), then the except-arm restore on `Exception` paths, then
the finally-arm restore, then the atexit-registered restore. -/
def mainTrace : ExitPath → List TermEvent
  | .normal => [.setRaw, .restoreSaved, .restoreSaved]
  | .exnInBody raw =>
      (if raw then [TermEvent.setRaw] else []) ++
      [.restoreSaved, .restoreSaved, .restoreSaved]
  | .interruptInBody raw =>
      (if raw then [TermEvent.setRaw] else []) ++ [.restoreSaved, .restoreSaved]

/-- Effect of one operation on the terminal attributes: `set_manual_raw`
computes new attributes from the current ones; `restore` writes back the
saved ones. -/
def applyEvent {A : Type} (saved : A) (mraw : A → A) (cur : A) : TermEvent → A
  | .setRaw => mraw cur
  | .restoreSaved => saved

/-- The terminal attributes at process exit, starting from the captured
attributes `saved`. -/
def finalAttrs {A : Type} (saved : A) (mraw : A → A) (p : ExitPath) : A :=
  (mainTrace p).foldl (applyEvent saved mraw) saved

/-- Number of `restore` calls performed on an exit path. -/
def restoreCount (p : ExitPath) : Nat :=
  ((mainTrace p).filter (fun e => e = TermEvent.restoreSaved)).length

/-- Substring occurrence: `needle` appears contiguously inside `hay`. -/
def occursIn (needle : List Char) : List Char → Bool
  | [] => needle.isPrefixOf []
  | c :: rest => needle.isPrefixOf (c :: rest) || occursIn needle rest

/-! Remaining definitions used by the claim theorems: predicates, concrete
decision-service environments, and the upload-round invariant. -/

/-- The terminal action tags of the controller's state machine. -/
def isTerminal (a : List Char) : Bool :=
  a = "ASK".data || a = "REVIEW".data || a = "EXECUTE".data || a = "BLOCK".data

/-- Whether a JSON value is a list. -/
def isJArr : JVal → Bool
  | .arr _ => true
  | _ => false

/-- The previous-character value after consuming the characters `cs`. -/
def prevAfter (p : Option Char) : List Char → Option Char
  | [] => p
  | c :: cs => prevAfter (some c) cs

/-- Specification-side reading of a path that names or lies under a directory
entry `comp`, for a separator-normalized path: the entry occurs delimited by
start-of-string or a slash on the left and end-of-string or a slash on the
right. -/
def namesOrUnder (comp norm : List Char) : Prop :=
  ∃ a b, norm = a ++ comp ++ b ∧ (a = [] ∨ ∃ a2, a = a2 ++ ['/']) ∧
    (b = [] ∨ ∃ b2, b = '/' :: b2)

/-- Lookup in a string-valued insertion-ordered dict. -/
def slookup (k : List Char) : List (List Char × List Char) → Option (List Char)
  | [] => none
  | (k2, v) :: rest => if k2 = k then some v else slookup k rest

/-- Invariant of the UPLOAD fold: the staged ledger contains the initial one,
and every payload entry concerns a path of the processed domain outside the
initial ledger and carries an honest marker — validation failure, staging
failure, or the reference id of a successful staging whose path is now in the
ledger. -/
def UpInv (fs : List Char → Option FsEntry) (upl : List Char → Option (List Char))
    (u0 dom : List (List Char)) (st : UploadSt) : Prop :=
  (∀ x ∈ u0, x ∈ st.uploaded) ∧
  ∀ p v, slookup p st.payload = some v →
    p ∈ dom ∧ p ∉ u0 ∧
    ((_validate_file fs p = false ∧ v = "VALIDATION_FAILED".data) ∨
     (_validate_file fs p = true ∧ upl p = none ∧ v = "UPLOAD_FAILED".data) ∨
     (_validate_file fs p = true ∧ upl p = some v ∧ p ∈ st.uploaded))

/-- Decision service that proposes the same Inspect probe every round
(exercises the inspection ledger and the round bound). -/
def envC4 : AgentEnv :=
  { decide := fun _ _ => .ok
      [("action".data, .str "INSPECT".data),
       ("commands".data, .arr [.str "uname".data]),
       ("reason".data, .null)],
    runCmd := fun _ => "Linux".data,
    fs := fun _ => none,
    uploadFile := fun _ => none }

/-- Decision service that orders Execute of the state-changing built-in
`cd /tmp`; the subprocess oracle reports the empty captured output `cd`
produces. -/
def envC3 : AgentEnv :=
  { decide := fun _ _ => .ok
      [("action".data, .str "EXECUTE".data),
       ("commands".data, .arr [.str "cd /tmp".data]),
       ("reason".data, .null)],
    runCmd := fun _ => [],
    fs := fun _ => none,
    uploadFile := fun _ => none }

/-- Decision service whose first reply is a well-formed JSON object missing
the `action` field, followed by a Block. -/
def envC5 : AgentEnv :=
  { decide := fun i _ =>
      if i = 0 then .ok [("foo".data, JVal.null)]
      else .ok [("action".data, .str "BLOCK".data),
                ("reason".data, .str "stop".data), ("commands".data, .arr [])],
    runCmd := fun _ => [],
    fs := fun _ => none,
    uploadFile := fun _ => none }

/-- Decision service that requests an Upload of one stageable file and one
sensitive private-key path, then blocks; the filesystem holds only the small
regular file `data.txt`. -/
def envC7 : AgentEnv :=
  { decide := fun i _ =>
      if i = 0 then .ok [("action".data, .str "UPLOAD".data),
        ("commands".data,
          .arr [.str "data.txt".data, .str "/home/u/.ssh/id_rsa".data]),
        ("reason".data, .str "need the file".data)]
      else .ok [("action".data, .str "BLOCK".data),
                ("reason".data, .str "done".data), ("commands".data, .arr [])],
    runCmd := fun _ => [],
    fs := fun p => if p = "data.txt".data then some ⟨true, some 120⟩ else none,
    uploadFile := fun p => if p = "data.txt".data then some "file-abc123".data else none }

/-- Filesystem oracle of the C7 witness: a single small regular file. -/
def fsC7w (p : List Char) : Option FsEntry :=
  if p = "a.txt".data then some ⟨true, some 10⟩ else none

/-- Staging oracle of the C7 witness. -/
def uplC7w (p : List Char) : Option (List Char) :=
  if p = "a.txt".data then some "fid1".data else none

/-- Decision service that orders Execute with a commands array holding only
blank and non-string entries. -/
def envC10 : AgentEnv :=
  { decide := fun _ _ => .ok
      [("action".data, .str "EXECUTE".data),
       ("commands".data, .arr [.str [], .str "   ".data, .num 3, .null]),
       ("reason".data, .null)],
    runCmd := fun _ => "ran".data,
    fs := fun _ => none,
    uploadFile := fun _ => none }

/-! Search-completeness lemmas for the embedded matcher, used to settle the
universally quantified sensitive-path claim. -/

/-- Membership propagates through sequencing. -/
theorem mem_mAt_seq {a b : Re} {p : Option Char} {s : List Char}
    {x y : Option Char × List Char} (hx : x ∈ mAt a p s) (hy : y ∈ mAt b x.1 x.2) :
    y ∈ mAt (.seq a b) p s := by
  simp only [mAt, List.mem_flatMap]
  exact ⟨x, hx, hy⟩

/-- A literal regex consumes exactly its characters. -/
theorem mem_mAt_strRe (cs : List Char) :
    ∀ (p : Option Char) (b : List Char),
      (prevAfter p cs, b) ∈ mAt (strRe cs) p (cs ++ b) := by
  induction cs with
  | nil => intro p b; simp [strRe, mAt, prevAfter]
  | cons c cs ih =>
      intro p b
      exact mem_mAt_seq (a := .char c) (x := (some c, cs ++ b)) (by simp [mAt])
        (ih (some c) b)

/-- A nonempty match at the current position makes the search succeed. -/
theorem searchFrom_of_mAt {r : Re} {p : Option Char} {s : List Char}
    (h : mAt r p s ≠ []) : searchFrom r p s = true := by
  cases s with
  | nil => simp [searchFrom, List.isEmpty_iff, h]
  | cons c s => simp [searchFrom, List.isEmpty_iff, h]

/-- Search completeness: a nonempty match starting right after the prefix `a`
is found by the left-to-right search. -/
theorem searchFrom_append {r : Re} :
    ∀ (a t : List Char) (p : Option Char),
      mAt r (prevAfter p a) t ≠ [] → searchFrom r p (a ++ t) = true := by
  intro a
  induction a with
  | nil => intro t p h; exact searchFrom_of_mAt (by simpa [prevAfter] using h)
  | cons c a ih =>
      intro t p h
      have hr := ih t (some c) (by simpa [prevAfter] using h)
      simp [searchFrom, hr]

/-- The component shape `(^|/)comp(/|$)` matches at the start of the string
when the string begins with the component followed by end or a slash. -/
theorem compPat_mAt_start (comp b : List Char)
    (hb : b = [] ∨ ∃ b2, b = '/' :: b2) :
    mAt (compPat comp) none (comp ++ b) ≠ [] := by
  have h1 : ((none : Option Char), comp ++ b) ∈
      mAt (.alt .bol (.char '/')) none (comp ++ b) := by
    simp [mAt]
  have h2 : (prevAfter none comp, b) ∈ mAt (strRe comp) none (comp ++ b) :=
    mem_mAt_strRe comp none b
  have h3 : ∃ y, y ∈ mAt (.alt (.char '/') .eol) (prevAfter none comp) b := by
    rcases hb with rfl | ⟨b2, rfl⟩
    · exact ⟨(prevAfter none comp, []), by simp [mAt, atEol]⟩
    · exact ⟨(some '/', b2), by simp [mAt]⟩
  obtain ⟨y, hy⟩ := h3
  refine List.ne_nil_of_mem (a := y) ?_
  exact mem_mAt_seq h1 (mem_mAt_seq h2 (mem_mAt_seq hy (by simp [mAt])))

/-- The component shape matches right at a slash that precedes the component,
whatever came before the slash. -/
theorem compPat_mAt_slash (comp b : List Char) (p : Option Char)
    (hb : b = [] ∨ ∃ b2, b = '/' :: b2) :
    mAt (compPat comp) p ('/' :: (comp ++ b)) ≠ [] := by
  have h1 : ((some '/' : Option Char), comp ++ b) ∈
      mAt (.alt .bol (.char '/')) p ('/' :: (comp ++ b)) := by
    simp [mAt]
  have h2 : (prevAfter (some '/') comp, b) ∈
      mAt (strRe comp) (some '/') (comp ++ b) :=
    mem_mAt_strRe comp (some '/') b
  have h3 : ∃ y, y ∈ mAt (.alt (.char '/') .eol) (prevAfter (some '/') comp) b := by
    rcases hb with rfl | ⟨b2, rfl⟩
    · exact ⟨(prevAfter (some '/') comp, []), by simp [mAt, atEol]⟩
    · exact ⟨(some '/', b2), by simp [mAt]⟩
  obtain ⟨y, hy⟩ := h3
  refine List.ne_nil_of_mem (a := y) ?_
  exact mem_mAt_seq h1 (mem_mAt_seq h2 (mem_mAt_seq hy (by simp [mAt])))

/-- A path that names or lies under the component is found by the component
pattern. -/
theorem reSearch_comp {comp norm : List Char} (h : namesOrUnder comp norm) :
    reSearch (compPat comp) norm = true := by
  obtain ⟨a, b, rfl, ha, hb⟩ := h
  rcases ha with rfl | ⟨a2, rfl⟩
  · exact searchFrom_of_mAt (by simpa [prevAfter] using compPat_mAt_start comp b hb)
  · have he : (a2 ++ ['/']) ++ comp ++ b = a2 ++ ('/' :: (comp ++ b)) := by simp
    rw [he]
    exact searchFrom_append a2 _ none (compPat_mAt_slash comp b _ hb)

/-- A suffix-anchored literal pattern finds its suffix. -/
theorem reSearch_suffixPat (sfx : List Char) (a : List Char) :
    reSearch (.seq (strRe sfx) .eol) (a ++ sfx) = true := by
  apply searchFrom_append a sfx none
  have h2 : (prevAfter (prevAfter none a) sfx, ([] : List Char)) ∈
      mAt (strRe sfx) (prevAfter none a) (sfx ++ []) :=
    mem_mAt_strRe sfx (prevAfter none a) []
  rw [List.append_nil] at h2
  refine List.ne_nil_of_mem (a := (prevAfter (prevAfter none a) sfx, ([] : List Char))) ?_
  exact mem_mAt_seq h2 (by simp [mAt, atEol])

/-- The last-component shape `(^|/)comp$` finds a path whose final component
is exactly `comp`. -/
theorem reSearch_lastComp (comp norm : List Char)
    (h : norm = comp ∨ ∃ a2, norm = a2 ++ '/' :: comp) :
    reSearch (seqList [.alt .bol (.char '/'), strRe comp, .eol]) norm = true := by
  rcases h with h | ⟨a2, h⟩ <;> rw [h]
  · apply searchFrom_of_mAt
    have h1 : ((none : Option Char), comp) ∈
        mAt (.alt .bol (.char '/')) none comp := by simp [mAt]
    have h2 : (prevAfter none comp, ([] : List Char)) ∈
        mAt (strRe comp) none (comp ++ []) := mem_mAt_strRe comp none []
    rw [List.append_nil] at h2
    have h3 : (prevAfter none comp, ([] : List Char)) ∈
        mAt Re.eol (prevAfter none comp) [] := by simp [mAt, atEol]
    have h4 : (prevAfter none comp, ([] : List Char)) ∈
        mAt Re.eps (prevAfter none comp) [] := by simp [mAt]
    refine List.ne_nil_of_mem (a := (prevAfter none comp, ([] : List Char))) ?_
    exact mem_mAt_seq h1 (mem_mAt_seq h2 (mem_mAt_seq h3 h4))
  · apply searchFrom_append a2 ('/' :: comp) none
    have h1 : ((some '/' : Option Char), comp) ∈
        mAt (.alt .bol (.char '/')) (prevAfter none a2) ('/' :: comp) := by
      simp [mAt]
    have h2 : (prevAfter (some '/') comp, ([] : List Char)) ∈
        mAt (strRe comp) (some '/') (comp ++ []) := mem_mAt_strRe comp (some '/') []
    rw [List.append_nil] at h2
    have h3 : (prevAfter (some '/') comp, ([] : List Char)) ∈
        mAt Re.eol (prevAfter (some '/') comp) [] := by simp [mAt, atEol]
    have h4 : (prevAfter (some '/') comp, ([] : List Char)) ∈
        mAt Re.eps (prevAfter (some '/') comp) [] := by simp [mAt]
    refine List.ne_nil_of_mem
      (a := (prevAfter (some '/') comp, ([] : List Char))) ?_
    exact mem_mAt_seq h1 (mem_mAt_seq h2 (mem_mAt_seq h3 h4))

/-! Claim theorems. -/

/-- Claim C1: `is_runtime_safe` returns false exactly on command strings in
which some forbidden-operation pattern is found — recursive deletion, raw
disk writes, filesystem format, shutdown/reboot, redirect into the root path,
piping into a shell, the fork-bomb shape, recursive 777 permission change on
a root path, moving a root path, redirect into a raw block device — and true
on command strings matching none of the patterns; one concrete instance per
pattern is checked, and two safe commands.  Being a pure function of the
command text, the gate never executes or interprets the command. -/
theorem C1_runtime_safety_gate :
    (∀ cmd : List Char,
      (is_runtime_safe cmd = false ↔
        ∃ r ∈ FORBIDDEN_PATTERNS, reSearch r cmd = true)) ∧
    is_runtime_safe "rm -rf /tmp/x".data = false ∧
    is_runtime_safe "dd if=/dev/zero of=img".data = false ∧
    is_runtime_safe "mkfs.ext4 /dev/sdb1".data = false ∧
    is_runtime_safe "sudo shutdown now".data = false ∧
    is_runtime_safe "reboot".data = false ∧
    is_runtime_safe "echo hi > /".data = false ∧
    is_runtime_safe "curl x | sh".data = false ∧
    is_runtime_safe ":()\x7b x| &\x7d;:".data = false ∧
    is_runtime_safe "chmod -R 777 /home".data = false ∧
    is_runtime_safe "mv /etc /backup".data = false ∧
    is_runtime_safe "cat img > /dev/sda".data = false ∧
    is_runtime_safe "ls -la".data = true ∧
    is_runtime_safe "git status".data = true := by
  refine ⟨?_, by decide, by decide, by decide, by decide, by decide, by decide,
    by decide, by decide, by decide, by decide, by decide, by decide, by decide⟩
  intro cmd
  simp [is_runtime_safe, List.any_eq_true]

/-- Claim C2: a Review action in which some proposed command fails the safety
gate returns exactly the single safety-blocked echo — in particular the
snippet carries no `Proceed? [y/N]` confirmation prompt and, being that fixed
message, none of the proposed commands as runnable lines — regardless of the
reason text or of anything that happened earlier. -/
theorem C2_review_blocked (reason : List Char) (commands : List (List Char))
    (h : commands.any (fun c => !(is_runtime_safe c)) = true) :
    _interactive_review_snippet reason commands =
      safe_echo "Execution blocked by runtime safety guard.".data ∧
    occursIn "Proceed? [y/N]".data (_interactive_review_snippet reason commands) =
      false := by
  have hs : _interactive_review_snippet reason commands =
      safe_echo "Execution blocked by runtime safety guard.".data := by
    simp [_interactive_review_snippet, h]
  exact ⟨hs, by rw [hs]; decide⟩

/-- Witness for C2 at the concrete blocked batch `["rm -rf /"]`. -/
theorem C2_review_blocked_witness :
    (["rm -rf /".data].any (fun c => !(is_runtime_safe c)) = true) ∧
    _interactive_review_snippet "danger".data ["rm -rf /".data] =
      safe_echo "Execution blocked by runtime safety guard.".data :=
  ⟨by decide, (C2_review_blocked "danger".data ["rm -rf /".data] (by decide)).1⟩

/-- Claim C3 (code bug, failing input `Execute ["cd /tmp"]`): the command
passes the safety gate and is handed to a captured-output subprocess (the
probe log), and the text the controller returns to the hook is that
subprocess's captured output — empty here — so the directory change happens
in a discarded child process and is never observable by the interactive
session; this contradicts the claim and the source's own comment
(`openaiintegrator.py` line 574) that commands execute in the user's shell so
that stateful operations work. -/
theorem C3_execute_captured_subprocess :
    is_runtime_safe "cd /tmp".data = true ∧
    (ai_terminal envC3 "cd /tmp".data).probes = ["cd /tmp".data] ∧
    (ai_terminal envC3 "cd /tmp".data).output = [] := by
  refine ⟨by decide, by decide, by decide⟩

/-- Claim C5 (amended): a decision-service call that raises — transport error
or non-JSON reply — yields the fail-closed BLOCK dict whose reason carries
the diagnostic, and `call_llm` itself is a total function; a reply that
parses as a JSON object is returned unchanged even when the `action` field is
missing, and the controller then appends the corrective invalid-action
message and keeps looping (concrete run: a missing-`action` round is followed
by a second round). -/
theorem C5_decision_client_fail_closed :
    (∀ e : List Char,
      actionOfDict (call_llm (.error e)) = "BLOCK".data ∧
      jget (call_llm (.error e)) "reason".data .null =
        .str ("LLM Error: ".data ++ e)) ∧
    (∀ d, call_llm (.ok d) = d) ∧
    (ai_terminal envC5 "q".data).rounds = 2 ∧
    (ai_terminal envC5 "q".data).output = safe_echo "stop".data ∧
    (ai_terminal envC5 "q".data).messages.any
      (fun m => occursIn "INVALID_ACTION".data m.2) = true := by
  exact ⟨fun e => ⟨rfl, rfl⟩, fun d => rfl, by decide, by decide, by decide⟩

/-- Claim C5 as frozen is false on the code: a reply parsed as a JSON object
without an `action` field is not turned into a Block action — `call_llm`
returns it unchanged and the extracted action tag is empty. -/
theorem C5_claim_counterexample :
    call_llm (.ok [("foo".data, JVal.null)]) = [("foo".data, JVal.null)] ∧
    actionOfDict (call_llm (.ok [("foo".data, JVal.null)])) ≠ "BLOCK".data := by
  exact ⟨rfl, by decide⟩

/-- Claim C8 (code bug, failing input Ask("install java", "Which version?")):
the Ask snippet prints the question, reads one line, and builds the new query
as the original intent plus `"\n\nUSER_ANSWER: "` and the captured answer
verbatim — but its re-invocation line references the shell variables
`$TSPY`/`$TSCTL`, while the hook contract of `spawn_shell` exports `TS_PY`
and `TS_CTL` (which the bootstrap hook itself uses); the snippet mentions
neither `$TS_PY` nor `$TS_CTL`, so in the hook's environment the invocation
expands to an empty command and the entry point is never re-invoked. -/
theorem C8_ask_snippet_env_vars :
    occursIn "$TSPY $TSCTL FAIL".data
      (_interactive_ask_snippet "install java".data "Which version?".data) = true ∧
    occursIn "\n\nUSER_ANSWER: $TS_ANSWER".data
      (_interactive_ask_snippet "install java".data "Which version?".data) = true ∧
    occursIn ('$' :: TS_PY_VAR)
      (_interactive_ask_snippet "install java".data "Which version?".data) = false ∧
    occursIn ('$' :: TS_CTL_VAR)
      (_interactive_ask_snippet "install java".data "Which version?".data) = false ∧
    occursIn ('$' :: TS_PY_VAR) hook_invocation_line = true ∧
    occursIn ('$' :: TS_CTL_VAR) hook_invocation_line = true := by
  refine ⟨by decide, by decide, by decide, by decide, by decide, by decide⟩

/-- The loop makes at most `fuel` further decision rounds. -/
theorem ai_terminal_loop_rounds_le (env : AgentEnv) (u : List Char) :
    ∀ (fuel : Nat) (st : LoopSt),
      (ai_terminal_loop env u st fuel).rounds ≤ st.rounds + fuel := by
  intro fuel
  induction fuel with
  | zero => intro st; simp [ai_terminal_loop]
  | succ n ih =>
      intro st
      simp only [ai_terminal_loop]
      split_ifs
      · exact le_trans (ih _) (by show st.rounds + 1 + n ≤ st.rounds + (n + 1); omega)
      · exact le_trans (ih _) (by show st.rounds + 1 + n ≤ st.rounds + (n + 1); omega)
      · exact Nat.add_le_add_left (Nat.succ_le_succ (Nat.zero_le n)) st.rounds
      · exact Nat.add_le_add_left (Nat.succ_le_succ (Nat.zero_le n)) st.rounds
      · exact Nat.add_le_add_left (Nat.succ_le_succ (Nat.zero_le n)) st.rounds
      · exact Nat.add_le_add_left (Nat.succ_le_succ (Nat.zero_le n)) st.rounds
      · exact le_trans (ih _) (by show st.rounds + 1 + n ≤ st.rounds + (n + 1); omega)

/-- When no reply of the stream carries a terminal action tag, the loop runs
out of fuel and returns the timed-out message. -/
theorem ai_terminal_loop_timeout (env : AgentEnv) (u : List Char)
    (h : ∀ i ms, isTerminal (actionOfDict (call_llm (env.decide i ms))) = false) :
    ∀ (fuel : Nat) (st : LoopSt),
      (ai_terminal_loop env u st fuel).output =
        safe_echo "Agent timed out.".data := by
  intro fuel
  induction fuel with
  | zero => intro st; simp [ai_terminal_loop]
  | succ n ih =>
      intro st
      have hterm := h st.rounds (st.messages.drop st.lastSent)
      simp only [isTerminal, Bool.or_eq_false_iff, decide_eq_false_iff_not] at hterm
      simp only [ai_terminal_loop]
      split_ifs with h1 h2 h3 h4 h5 h6
      · exact ih _
      · exact ih _
      · exact absurd h3 hterm.1.1.1
      · exact absurd h4 hterm.1.1.2
      · exact absurd h5 hterm.1.2
      · exact absurd h6 hterm.2
      · exact ih _

/-- Claim C4: for every stream of decision-service replies the agent performs
at most 12 decision rounds; when no reply ever carries a terminal action tag
(Ask, Review, Execute, Block) the controller returns the timed-out Block
text; and with a service that repeats the same Inspect command every round,
the ledger lets the probe subprocess run exactly once — later rounds record
the repeated-inspection observation instead — and the loop still exhausts its
12 rounds and times out. -/
theorem C4_loop_bounded_and_ledger :
    (∀ (env : AgentEnv) (u : List Char), (ai_terminal env u).rounds ≤ MAX_STEPS) ∧
    (∀ (env : AgentEnv) (u : List Char),
      (∀ i ms, isTerminal (actionOfDict (call_llm (env.decide i ms))) = false) →
      (ai_terminal env u).output = safe_echo "Agent timed out.".data) ∧
    (ai_terminal envC4 "check".data).output = safe_echo "Agent timed out.".data ∧
    (ai_terminal envC4 "check".data).rounds = MAX_STEPS ∧
    (ai_terminal envC4 "check".data).probes = ["uname".data] ∧
    (ai_terminal envC4 "check".data).messages.any
      (fun m => occursIn "repeated inspection detected".data m.2) = true := by
  refine ⟨?_, ?_, by decide, by decide, by decide, by decide⟩
  · intro env u
    have hb := ai_terminal_loop_rounds_le env u MAX_STEPS
      { messages := [("system".data, "ORIGINAL_INTENT: ".data ++ u)],
        seen := [], uploaded := [], lastSent := 0, rounds := 0, probes := [] }
    simpa [ai_terminal] using hb
  · intro env u h
    exact ai_terminal_loop_timeout env u h MAX_STEPS _

/-- Witness for C4: the constant-Inspect service satisfies the non-terminal
hypothesis, and the loop times out on it. -/
theorem C4_loop_bounded_witness :
    (∀ i ms, isTerminal (actionOfDict (call_llm (envC4.decide i ms))) = false) ∧
    (ai_terminal envC4 "w".data).output = safe_echo "Agent timed out.".data :=
  ⟨fun _ _ => rfl,
   C4_loop_bounded_and_ledger.2.1 envC4 "w".data (fun _ _ => rfl)⟩

/-- Claim C6 (amended): every path string that, after separator
normalization, names or lies under an SSH config directory (`.ssh`), a
cloud-credential directory (`.aws`), or a GPG directory (`.gnupg`), or whose
final path component is exactly `.env`, or that ends in `.pem`, `.key`,
`id_rsa`, or `id_ed25519`, is reported sensitive; the predicate is a total
pure function of the path string, hence side-effect-free. -/
theorem C6_sensitive_paths (p : List Char)
    (h : namesOrUnder ".ssh".data (normalizeSep p) ∨
         namesOrUnder ".aws".data (normalizeSep p) ∨
         namesOrUnder ".gnupg".data (normalizeSep p) ∨
         (normalizeSep p = ".env".data ∨
           ∃ a, normalizeSep p = a ++ '/' :: ".env".data) ∨
         (∃ a, normalizeSep p = a ++ ".pem".data) ∨
         (∃ a, normalizeSep p = a ++ ".key".data) ∨
         (∃ a, normalizeSep p = a ++ "id_rsa".data) ∨
         (∃ a, normalizeSep p = a ++ "id_ed25519".data)) :
    _is_sensitive_upload_path p = true := by
  unfold _is_sensitive_upload_path
  rw [List.any_eq_true]
  rcases h with h | h | h | h | ⟨a, ha⟩ | ⟨a, ha⟩ | ⟨a, ha⟩ | ⟨a, ha⟩
  · exact ⟨patSsh, by simp [SENSITIVE_UPLOAD_PATTERNS], reSearch_comp h⟩
  · exact ⟨patAws, by simp [SENSITIVE_UPLOAD_PATTERNS], reSearch_comp h⟩
  · exact ⟨patGnupg, by simp [SENSITIVE_UPLOAD_PATTERNS], reSearch_comp h⟩
  · exact ⟨patEnv, by simp [SENSITIVE_UPLOAD_PATTERNS],
      reSearch_lastComp ".env".data _ h⟩
  · exact ⟨patPem, by simp [SENSITIVE_UPLOAD_PATTERNS],
      by rw [ha]; exact reSearch_suffixPat ".pem".data a⟩
  · exact ⟨patKey, by simp [SENSITIVE_UPLOAD_PATTERNS],
      by rw [ha]; exact reSearch_suffixPat ".key".data a⟩
  · exact ⟨patIdRsa, by simp [SENSITIVE_UPLOAD_PATTERNS],
      by rw [ha]; exact reSearch_suffixPat "id_rsa".data a⟩
  · exact ⟨patIdEd25519, by simp [SENSITIVE_UPLOAD_PATTERNS],
      by rw [ha]; exact reSearch_suffixPat "id_ed25519".data a⟩

/-- Witness for C6 at the concrete path `/home/u/.ssh/config`. -/
theorem C6_sensitive_paths_witness :
    namesOrUnder ".ssh".data (normalizeSep "/home/u/.ssh/config".data) ∧
    _is_sensitive_upload_path "/home/u/.ssh/config".data = true :=
  ⟨⟨"/home/u/".data, "/config".data, by decide,
      Or.inr ⟨"/home/u".data, by decide⟩, Or.inr ⟨"config".data, by decide⟩⟩,
   C6_sensitive_paths "/home/u/.ssh/config".data
     (Or.inl ⟨"/home/u/".data, "/config".data, by decide,
       Or.inr ⟨"/home/u".data, by decide⟩, Or.inr ⟨"config".data, by decide⟩⟩)⟩

/-- Claim C6 as frozen is false on the code: `a.env` ends in `.env`, yet the
predicate reports it non-sensitive — the `(^|/)\.env$` pattern demands `.env`
as a whole path component, not a mere suffix. -/
theorem C6_claim_counterexample :
    (∃ a, "a.env".data = a ++ ".env".data) ∧
    _is_sensitive_upload_path "a.env".data = false :=
  ⟨⟨"a".data, by decide⟩, by decide⟩

/-- Lookup after a dict update. -/
theorem slookup_dictInsert (k v q : List Char) :
    ∀ d, slookup q (dictInsert k v d) = if q = k then some v else slookup q d := by
  intro d
  induction d with
  | nil =>
      simp only [dictInsert, slookup]
      by_cases h : q = k
      · rw [if_pos h.symm, if_pos h]
      · rw [if_neg (fun hh => h hh.symm), if_neg h]
  | cons kv rest ih =>
      obtain ⟨k2, v2⟩ := kv
      simp only [dictInsert]
      by_cases h2 : k2 = k
      · rw [if_pos h2]
        simp only [slookup]
        by_cases hq : q = k
        · rw [if_pos hq.symm, if_pos hq]
        · rw [if_neg (fun hh => hq hh.symm), if_neg hq,
            if_neg (fun hh : k2 = q => hq ((hh.symm.trans h2)))]
      · rw [if_neg h2]
        simp only [slookup, ih]
        by_cases hk2q : k2 = q
        · rw [if_pos hk2q, if_neg (fun hh : q = k => h2 (hk2q.trans hh)),
            if_pos hk2q]
        · rw [if_neg hk2q]
          by_cases hqk : q = k
          · rw [if_pos hqk, if_pos hqk]
          · rw [if_neg hqk, if_neg hqk, if_neg hk2q]

/-- The upload invariant is preserved by one step of the round. -/
theorem uploadStep_inv {fs : List Char → Option FsEntry}
    {upl : List Char → Option (List Char)} {u0 dom : List (List Char)}
    {st : UploadSt} {c : List Char} (hc : c ∈ dom) (h : UpInv fs upl u0 dom st) :
    UpInv fs upl u0 dom (uploadStep fs upl st c) := by
  obtain ⟨hmono, hpay⟩ := h
  unfold uploadStep
  split_ifs with h1 h2
  · exact ⟨hmono, hpay⟩
  · cases hu : upl c with
    | some fid =>
        dsimp only
        refine ⟨fun x hx => List.mem_append_left _ (hmono x hx), ?_⟩
        intro p v hpv
        rw [slookup_dictInsert] at hpv
        by_cases hpc : p = c
        · subst hpc
          rw [if_pos rfl] at hpv
          obtain rfl : fid = v := by injection hpv
          refine ⟨hc, fun hp0 => h1 (hmono p hp0),
            Or.inr (Or.inr ⟨h2, hu, List.mem_append_right _ (by simp)⟩)⟩
        · rw [if_neg hpc] at hpv
          obtain ⟨hd, hn0, hcase⟩ := hpay p v hpv
          refine ⟨hd, hn0, ?_⟩
          rcases hcase with hca | hca | ⟨hv1, hv2, hv3⟩
          · exact Or.inl hca
          · exact Or.inr (Or.inl hca)
          · exact Or.inr (Or.inr ⟨hv1, hv2, List.mem_append_left _ hv3⟩)
    | none =>
        dsimp only
        refine ⟨hmono, ?_⟩
        intro p v hpv
        rw [slookup_dictInsert] at hpv
        by_cases hpc : p = c
        · subst hpc
          rw [if_pos rfl] at hpv
          obtain rfl : "UPLOAD_FAILED".data = v := by injection hpv
          exact ⟨hc, fun hp0 => h1 (hmono p hp0), Or.inr (Or.inl ⟨h2, hu, rfl⟩)⟩
        · rw [if_neg hpc] at hpv
          exact hpay p v hpv
  · refine ⟨hmono, ?_⟩
    intro p v hpv
    rw [slookup_dictInsert] at hpv
    by_cases hpc : p = c
    · subst hpc
      rw [if_pos rfl] at hpv
      obtain rfl : "VALIDATION_FAILED".data = v := by injection hpv
      exact ⟨hc, fun hp0 => h1 (hmono p hp0),
        Or.inl ⟨Bool.eq_false_iff.mpr h2, rfl⟩⟩
    · rw [if_neg hpc] at hpv
      exact hpay p v hpv

/-- The upload invariant is preserved by the whole fold. -/
theorem uploadFold_inv {fs : List Char → Option FsEntry}
    {upl : List Char → Option (List Char)} {u0 dom : List (List Char)} :
    ∀ (l : List (List Char)) (st : UploadSt), (∀ c ∈ l, c ∈ dom) →
      UpInv fs upl u0 dom st →
      UpInv fs upl u0 dom (l.foldl (uploadStep fs upl) st) := by
  intro l
  induction l with
  | nil => intro st _ h; simpa using h
  | cons c l ih =>
      intro st hdom h
      simp only [List.foldl_cons]
      exact ih _ (fun x hx => hdom x (List.mem_cons_of_mem _ hx))
        (uploadStep_inv (hdom c (List.mem_cons_self _ _)) h)

/-- Claim C7: in an UPLOAD round every payload entry concerns one of the
first ten requested paths (at most 10 processed) and none of the
already-staged ones (skipped); each entry is the validation-failure marker,
the staging-failure marker, or the reference id of a successful staging whose
path is then recorded in the staged ledger — failures never abort the round;
the staged ledger only grows; validation means: exists, is a regular file, is
not sensitive, and is at most 250000 bytes; and the round is non-terminal —
in the concrete run an UPLOAD reply (one good file, one sensitive path) is
followed by a second decision round, the conversation recording both the
failure marker and the staged reference id. -/
theorem C7_upload_round (fs : List Char → Option FsEntry)
    (upl : List Char → Option (List Char)) (u0 commands : List (List Char)) :
    ((∀ p v, slookup p (uploadRound fs upl u0 commands).payload = some v →
        p ∈ commands.take MAX_UPLOAD_FILES ∧ p ∉ u0 ∧
        ((_validate_file fs p = false ∧ v = "VALIDATION_FAILED".data) ∨
         (_validate_file fs p = true ∧ upl p = none ∧ v = "UPLOAD_FAILED".data) ∨
         (_validate_file fs p = true ∧ upl p = some v ∧
           p ∈ (uploadRound fs upl u0 commands).uploaded))) ∧
      ∀ x ∈ u0, x ∈ (uploadRound fs upl u0 commands).uploaded) ∧
    (∀ path, _validate_file fs path = true ↔
      ∃ e, fs path = some e ∧ e.isFile = true ∧
        _is_sensitive_upload_path path = false ∧
        ∃ n, e.size? = some n ∧ n ≤ MAX_UPLOAD_BYTES_PER_FILE) ∧
    (ai_terminal envC7 "analyze data.txt".data).rounds = 2 ∧
    (ai_terminal envC7 "analyze data.txt".data).output = safe_echo "done".data ∧
    (ai_terminal envC7 "analyze data.txt".data).messages.any
      (fun m => occursIn "VALIDATION_FAILED".data m.2) = true ∧
    (ai_terminal envC7 "analyze data.txt".data).messages.any
      (fun m => occursIn "file-abc123".data m.2) = true := by
  have base : UpInv fs upl u0 (commands.take MAX_UPLOAD_FILES) ⟨[], u0⟩ :=
    ⟨fun x hx => hx, fun p v hpv => by simp [slookup] at hpv⟩
  have hinv := uploadFold_inv (commands.take MAX_UPLOAD_FILES) ⟨[], u0⟩
    (fun c hc => hc) base
  refine ⟨⟨hinv.2, hinv.1⟩, ?_, by decide, by decide, by decide, by decide⟩
  intro path
  unfold _validate_file
  cases hfs : fs path with
  | none => simp
  | some e =>
      obtain ⟨isf, sz⟩ := e
      cases isf with
      | false => simp
      | true =>
          by_cases hs : _is_sensitive_upload_path path = true
          · simp [hs]
          · cases sz with
            | none => simp [hs]
            | some n => simp [hs]

/-- Witness for C7 at a singleton request that validates and stages. -/
theorem C7_upload_round_witness :
    slookup "a.txt".data (uploadRound fsC7w uplC7w [] ["a.txt".data]).payload =
      some "fid1".data ∧
    ("a.txt".data ∈ ["a.txt".data].take MAX_UPLOAD_FILES ∧
     "a.txt".data ∉ ([] : List (List Char)) ∧
     ((_validate_file fsC7w "a.txt".data = false ∧
        "fid1".data = "VALIDATION_FAILED".data) ∨
      (_validate_file fsC7w "a.txt".data = true ∧ uplC7w "a.txt".data = none ∧
        "fid1".data = "UPLOAD_FAILED".data) ∨
      (_validate_file fsC7w "a.txt".data = true ∧
        uplC7w "a.txt".data = some "fid1".data ∧
        "a.txt".data ∈ (uploadRound fsC7w uplC7w [] ["a.txt".data]).uploaded))) :=
  ⟨by decide,
   (C7_upload_round fsC7w uplC7w [] ["a.txt".data]).1.1 "a.txt".data "fid1".data
     (by decide)⟩

/-- Claim C9 (amended): on every modelled exit path of the proxy — normal
return, exception in the body, interrupt in the body, with or without raw
mode reached — the terminal attributes at exit equal the attributes captured
at startup, and the restoration runs at least once; it does not run exactly
once (the finally arm and the atexit handler both fire, plus the except arm
on exception paths), correctness resting on the idempotence of restoring the
saved attributes. -/
theorem C9_attrs_restored {A : Type} (saved : A) (mraw : A → A) (p : ExitPath) :
    finalAttrs saved mraw p = saved ∧ 1 ≤ restoreCount p := by
  cases p with
  | normal => exact ⟨rfl, by decide⟩
  | exnInBody raw => cases raw <;> exact ⟨rfl, by decide⟩
  | interruptInBody raw => cases raw <;> exact ⟨rfl, by decide⟩

/-- Claim C9 as frozen is false on the code: restoration is not released
exactly once per exit path — the normal path restores twice (finally plus
atexit) and the exception path three times. -/
theorem C9_claim_counterexample :
    restoreCount ExitPath.normal = 2 ∧
    restoreCount (ExitPath.exnInBody true) = 3 ∧
    ¬ restoreCount ExitPath.normal = 1 := by decide

/-- Claim C10: the commands field is normalized before any action branch
runs — a non-list value yields the empty list, and every kept entry is a
string entry of the list whose strip is nonempty (non-strings and
blank-or-empty strings are dropped); consequently an Execute reply whose
commands array holds only blank and non-string entries returns the
no-commands notice and hands nothing to a subprocess. -/
theorem C10_normalize_commands :
    (∀ v : JVal, isJArr v = false → normalize_commands v = []) ∧
    (∀ (xs : List JVal) (c : List Char), c ∈ normalize_commands (.arr xs) →
      JVal.str c ∈ xs ∧ pyStrip c ≠ []) ∧
    (ai_terminal envC10 "x".data).output = safe_echo "No commands provided.".data ∧
    (ai_terminal envC10 "x".data).probes = [] := by
  refine ⟨?_, ?_, by decide, by decide⟩
  · intro v h
    cases v <;> simp_all [isJArr, normalize_commands]
  · intro xs c hc
    simp only [normalize_commands, List.mem_filterMap] at hc
    obtain ⟨x, hx, hfx⟩ := hc
    cases x with
    | str s =>
        by_cases hs : pyStrip s = [] <;> simp [hs] at hfx
        subst hfx
        exact ⟨hx, hs⟩
    | null => simp at hfx
    | bool b => simp at hfx
    | num n => simp at hfx
    | arr ys => simp at hfx
    | obj kvs => simp at hfx

/-- Witness for C10 at concrete values. -/
theorem C10_normalize_commands_witness :
    (isJArr JVal.null = false ∧ normalize_commands JVal.null = []) ∧
    ("ls".data ∈ normalize_commands (.arr [.str "ls".data, .num 3]) ∧
      JVal.str "ls".data ∈ [JVal.str "ls".data, JVal.num 3] ∧
      pyStrip "ls".data ≠ []) :=
  ⟨⟨rfl, C10_normalize_commands.1 JVal.null rfl⟩,
   ⟨by decide,
    C10_normalize_commands.2.1 [JVal.str "ls".data, JVal.num 3] "ls".data (by decide)⟩⟩

end ThinkShell
